import Mathlib

/-!
Verification of the DDI-Prediction core pipeline (Backend/src): the severity
labeler, the fingerprint encoder's two failure modes, the preprocessor
artifact round trip, the batch preprocessing loop, and the risk translation
layer of `DDIPredictor`.  Probabilities are modelled as rationals, fingerprint
vectors as lists of rationals, and the external molecular library (rdkit) as
an abstract parser/encoder pair passed in as parameters.
-/

/-- Character-list version of `needle.isPrefixOf hay`, used to model Python's
substring operator. -/
def charsStartWith : List Char → List Char → Bool
  | [], _ => true
  | _ :: _, [] => false
  | a :: as, b :: bs => a == b && charsStartWith as bs

/-- `occursIn needle hay` models Python's `needle in hay` substring test. -/
def occursIn (needle : List Char) : List Char → Bool
  | [] => charsStartWith needle []
  | c :: rest => charsStartWith needle (c :: rest) || occursIn needle rest

/-- Python `kw in text` on strings. -/
def strContains (text kw : String) : Bool :=
  occursIn kw.toList text.toList

/-- Python `str.lower` (the keyword lexicon is ASCII, where this agrees with
per-character lowering). -/
def pyLower (s : String) : String :=
  String.mk (s.data.map Char.toLower)

/-- The severe-interaction keyword lexicon of
`DrugDataPreprocessor.classify_interaction_severity` (identical in
`data_preprocessing.py` and `data_preprocessing_optimized.py`). -/
def severe_keywords : List String :=
  ["contraindicated", "avoid", "dangerous", "fatal", "death",
   "severe", "serious", "life-threatening", "toxic", "toxicity",
   "hemorrhage", "bleeding", "cardiac arrest", "respiratory",
   "seizure", "coma", "overdose"]

/-- The moderate-interaction keyword lexicon of
`DrugDataPreprocessor.classify_interaction_severity`. -/
def moderate_keywords : List String :=
  ["caution", "monitor", "may increase", "may decrease",
   "reduce", "adjust", "moderate", "careful", "watch",
   "consider", "potential", "risk", "effect"]

/-- `DrugDataPreprocessor.classify_interaction_severity`: an absent (NaN)
description gives the label None; otherwise the text is lower-cased, the
severe keyword loop runs first (any hit returns Severe), then the moderate
loop (any hit returns Moderate), else None. -/
def classify_interaction_severity (description : Option String) : String :=
  match description with
  | none => "None"
  | some d =>
    let description_lower := pyLower d
    if severe_keywords.any (fun kw => strContains description_lower kw) then "Severe"
    else if moderate_keywords.any (fun kw => strContains description_lower kw) then "Moderate"
    else "None"

/-- sklearn `LabelEncoder`, reduced to the data the pipeline reads from it:
the fitted ordered class list `classes_`. -/
structure LabelEncoder where
  classes : List String
deriving DecidableEq

/-- The mutable state of `DrugDataPreprocessor` that `save_preprocessor` and
`load_preprocessor` touch, plus the fingerprint cache. -/
structure DrugDataPreprocessor where
  fingerprint_size : ℕ
  radius : ℕ
  label_encoder : LabelEncoder
  drug_to_smiles : List (String × String)
  fingerprint_cache : List (String × List ℚ)
deriving DecidableEq

/-- The pickled payload written by `save_preprocessor`: a dict with exactly
the keys label_encoder, drug_to_smiles, fingerprint_size, radius. -/
structure PreprocessorData where
  label_encoder : LabelEncoder
  drug_to_smiles : List (String × String)
  fingerprint_size : ℕ
  radius : ℕ
deriving DecidableEq

/-- `DrugDataPreprocessor.save_preprocessor`: serialize the four fields. -/
def save_preprocessor (p : DrugDataPreprocessor) : PreprocessorData :=
  { label_encoder := p.label_encoder
    drug_to_smiles := p.drug_to_smiles
    fingerprint_size := p.fingerprint_size
    radius := p.radius }

/-- `DrugDataPreprocessor.load_preprocessor`: overwrite the four fields of the
receiver with the deserialized payload. -/
def load_preprocessor (p : DrugDataPreprocessor) (data : PreprocessorData) :
    DrugDataPreprocessor :=
  { p with
    label_encoder := data.label_encoder
    drug_to_smiles := data.drug_to_smiles
    fingerprint_size := data.fingerprint_size
    radius := data.radius }

/-- The six outcomes of `DDIPredictor._get_risk_message`, one per return
statement, in source order. -/
inductive RiskMsg
  | dangerousCombination
  | highSevereRisk
  | moderateCaution
  | potentialInteraction
  | safeCombination
  | uncertain
deriving DecidableEq

/-- The probability the risk-message ladder reads for one class name:
`probabilities[class_to_idx['Severe']]` when the name is in the taxonomy,
else 0 (source lines 176-180 of predict.py). -/
def classProb (classes : List String) (probabilities : List ℚ) (name : String) : ℚ :=
  match classes.indexOf? name with
  | some i => probabilities.getD i 0
  | none => 0

/-- `DDIPredictor._get_risk_message`: the fixed threshold ladder over the raw
per-class probabilities, evaluated in source order with strict comparisons. -/
def get_risk_message (classes : List String) (probabilities : List ℚ) : RiskMsg :=
  let severe_prob := classProb classes probabilities "Severe"
  let moderate_prob := classProb classes probabilities "Moderate"
  let none_prob := classProb classes probabilities "None"
  if severe_prob > 7/10 then .dangerousCombination
  else if severe_prob > 5/10 then .highSevereRisk
  else if moderate_prob > 6/10 then .moderateCaution
  else if moderate_prob > 4/10 then .potentialInteraction
  else if none_prob > 7/10 then .safeCombination
  else .uncertain

/-- Confidence tiers of `DDIPredictor.get_detailed_prediction`. -/
inductive Tier
  | high
  | medium
  | low
deriving DecidableEq

/-- Python `max` over a list of non-negative values, with 0 for the empty
list (the source only applies it to a non-empty dict of probabilities). -/
def maxList (l : List ℚ) : ℚ :=
  l.foldr max 0

/-- The `result['probabilities']` values built in `predict_from_smiles`
lines 137-139: each raw class probability multiplied by 100, in taxonomy
order. -/
def probabilitiesField (probabilities : List ℚ) : List ℚ :=
  probabilities.map (fun x => x * 100)

/-- The confidence computation of `get_detailed_prediction` lines 230-237:
`max_prob = max(result['probabilities'].values())`, then the strict 80/60
ladder. -/
def confidenceOf (probabilities : List ℚ) : Tier :=
  let max_prob := maxList (probabilitiesField probabilities)
  if max_prob > 80 then .high
  else if max_prob > 60 then .medium
  else .low

/-- `np.argmax` as used on the probability vector (predict.py line 126):
index of the first occurrence of the maximum value. -/
def argmaxList : List ℚ → ℕ
  | [] => 0
  | [_] => 0
  | x :: y :: xs =>
    let j := argmaxList (y :: xs)
    if (y :: xs).getD j 0 > x then j + 1 else 0

/-- The pair feature of `predict_from_smiles` line 115 and
`preprocess_data_in_batches` line 173: `np.concatenate([fp1, fp2])` with the
fingerprints of the two structures in input order. -/
def encode_pair (encode : String → List ℚ) (a b : String) : List ℚ :=
  encode a ++ encode b

/-- Bulk-mode `DrugDataPreprocessor.smiles_to_fingerprint` (optimized
preprocessor, lines 32-57): consult the cache; on a cache miss, an
unparseable SMILES yields an all-zero vector of length `fingerprint_size`
and is not cached, while a parsed molecule's fingerprint is cached.  The
rdkit calls are abstracted into `molFromSmiles` and `morganFp`.  Returns the
vector together with the updated cache. -/
def bulk_smiles_to_fingerprint {Mol : Type}
    (molFromSmiles : String → Option Mol) (morganFp : Mol → List ℚ)
    (fingerprint_size : ℕ) (cache : List (String × List ℚ))
    (smiles : String) : List ℚ × List (String × List ℚ) :=
  match cache.lookup smiles with
  | some arr => (arr, cache)
  | none =>
    match molFromSmiles smiles with
    | none => (List.replicate fingerprint_size 0, cache)
    | some mol =>
      let arr := morganFp mol
      (arr, (smiles, arr) :: cache)

/-- Inference-mode `DDIPredictor.smiles_to_fingerprint` (predict.py lines
58-82): an unparseable SMILES raises `ValueError(f"Invalid SMILES: {smiles}")`,
re-wrapped by the except clause into
`ValueError(f"Error processing SMILES: {e}")`. -/
def inference_smiles_to_fingerprint {Mol : Type}
    (molFromSmiles : String → Option Mol) (morganFp : Mol → List ℚ)
    (smiles : String) : Except String (List ℚ) :=
  match molFromSmiles smiles with
  | none => .error ("Error processing SMILES: Invalid SMILES: " ++ smiles)
  | some mol => .ok (morganFp mol)

/-- The `model_info.json` fields `DDIPredictor.__init__` reads. -/
structure ModelInfo where
  input_dim : ℕ
  num_classes : ℕ
deriving DecidableEq

/-- The `DeepDDI` scorer as seen by the constructor: its declared input width
and class count (model_training.py lines 38-63). -/
structure DeepDDI where
  input_dim : ℕ
  num_classes : ℕ
deriving DecidableEq

/-- The state `DDIPredictor.__init__` builds. -/
structure DDIPredictor where
  model_info : ModelInfo
  label_encoder : LabelEncoder
  drug_to_smiles : List (String × String)
  fingerprint_size : ℕ
  radius : ℕ
  model : DeepDDI
deriving DecidableEq

/-- `DDIPredictor.__init__` (predict.py lines 19-56): load model info, unpack
the preprocessor artifact, and instantiate `DeepDDI` with the declared
`input_dim`.  The constructor performs no comparison between `input_dim` and
`2 * fingerprint_size`: it is total in those values. -/
def DDIPredictor.init (mi : ModelInfo) (pd : PreprocessorData) : DDIPredictor :=
  { model_info := mi
    label_encoder := pd.label_encoder
    drug_to_smiles := pd.drug_to_smiles
    fingerprint_size := pd.fingerprint_size
    radius := pd.radius
    model := { input_dim := mi.input_dim, num_classes := mi.num_classes } }

/-- One row of the interactions CSV as read by
`preprocess_data_in_batches`: the two drug keys and the free-text
description (absent models a NaN cell). -/
structure InteractionRow where
  drug1 : String
  drug2 : String
  description : Option String
deriving DecidableEq

/-- The inner row loop of `preprocess_data_in_batches` (lines 154-185): rows
with an unresolved drug key are skipped; otherwise the pair feature and
severity label are accumulated, `processed` is incremented, and the loop
breaks as soon as `processed >= max_samples`.  `encode` abstracts
`smiles_to_fingerprint` (the fingerprint cache does not change which rows
are produced).  Returns the accumulated `(feature, label)` rows and the
updated `processed` counter. -/
def processRows (drug_to_smiles : List (String × String))
    (encode : String → List ℚ) (max_samples : ℕ) :
    List InteractionRow → ℕ → List (List ℚ × String) × ℕ
  | [], processed => ([], processed)
  | row :: rest, processed =>
    match drug_to_smiles.lookup row.drug1, drug_to_smiles.lookup row.drug2 with
    | some smiles1, some smiles2 =>
      let combined_fp := encode smiles1 ++ encode smiles2
      let severity := classify_interaction_severity row.description
      let processed' := processed + 1
      if max_samples ≤ processed' then ([(combined_fp, severity)], processed')
      else
        let r := processRows drug_to_smiles encode max_samples rest processed'
        ((combined_fp, severity) :: r.1, r.2)
    | _, _ => processRows drug_to_smiles encode max_samples rest processed

/-- The chunk loop of `preprocess_data_in_batches` (lines 146-198): when
`sample_ratio < 1.0` each chunk is first subsampled by
`chunk.sample(frac=sample_ratio, random_state=random_state)` (abstracted as
`sampler`), then the row loop runs, and the loop stops once
`processed >= max_samples`. -/
def processChunks (drug_to_smiles : List (String × String))
    (encode : String → List ℚ)
    (sampler : ℚ → ℕ → List InteractionRow → List InteractionRow)
    (sample_ratio : ℚ) (random_state : ℕ) (max_samples : ℕ) :
    List (List InteractionRow) → ℕ → List (List ℚ × String) × ℕ
  | [], processed => ([], processed)
  | chunk :: rest, processed =>
    let chunk' := if sample_ratio < 1 then sampler sample_ratio random_state chunk else chunk
    let r := processRows drug_to_smiles encode max_samples chunk' processed
    if max_samples ≤ r.2 then (r.1, r.2)
    else
      let r' := processChunks drug_to_smiles encode sampler sample_ratio random_state
        max_samples rest r.2
      (r.1 ++ r'.1, r'.2)

/-- `preprocess_data_in_batches` (lines 124-198), reduced to the feature-row
stream it accumulates: count the total rows, set
`sample_ratio = max_samples / total_interactions` when the corpus exceeds
the cap (else ratio 1.0 and `max_samples = total_interactions`), and run the
chunk loop from `processed = 0`. -/
def preprocess_data_in_batches (drug_to_smiles : List (String × String))
    (encode : String → List ℚ)
    (sampler : ℚ → ℕ → List InteractionRow → List InteractionRow)
    (chunks : List (List InteractionRow)) (max_samples random_state : ℕ) :
    List (List ℚ × String) :=
  let total_interactions := (chunks.map List.length).sum
  if max_samples < total_interactions then
    (processChunks drug_to_smiles encode sampler
      ((max_samples : ℚ) / (total_interactions : ℚ)) random_state max_samples chunks 0).1
  else
    (processChunks drug_to_smiles encode sampler 1 random_state
      total_interactions chunks 0).1

/-- C6: saving a preprocessor and loading the payload back (into any
receiver) reproduces the saved fingerprint_size, radius, label taxonomy and
drug-name→structure index field by field. -/
theorem save_load_round_trip (p q : DrugDataPreprocessor) :
    (load_preprocessor q (save_preprocessor p)).fingerprint_size = p.fingerprint_size ∧
    (load_preprocessor q (save_preprocessor p)).radius = p.radius ∧
    (load_preprocessor q (save_preprocessor p)).label_encoder = p.label_encoder ∧
    (load_preprocessor q (save_preprocessor p)).drug_to_smiles = p.drug_to_smiles :=
  ⟨rfl, rfl, rfl, rfl⟩

/-- C2: `DDIPredictor.__init__` performs no width validation: with a scorer
declaring input width 6 and an artifact with fingerprint_size 4 (so
6 ≠ 2 × 4), construction still succeeds and yields a fully formed predictor
carrying the mismatched pair.  The mismatch is only hit later, inside a
prediction request. -/
theorem init_succeeds_on_width_mismatch :
    (DDIPredictor.init ⟨6, 3⟩
        ⟨⟨["Moderate", "None", "Severe"]⟩, [], 4, 2⟩).model.input_dim = 6 ∧
    (DDIPredictor.init ⟨6, 3⟩
        ⟨⟨["Moderate", "None", "Severe"]⟩, [], 4, 2⟩).fingerprint_size = 4 ∧
    (6 : ℕ) ≠ 2 * 4 :=
  ⟨rfl, rfl, by decide⟩

/-- C5: on an unparseable structure (a SMILES the parser rejects, not already
poisoning the cache), the bulk preprocessing encoder returns the all-zero
vector of length `fingerprint_size` with the cache unchanged, while the
inference encoder fails with an error message that names the offending
structure. -/
theorem fingerprint_dual_mode {Mol : Type}
    (molFromSmiles : String → Option Mol) (morganFp : Mol → List ℚ)
    (fingerprint_size : ℕ) (cache : List (String × List ℚ)) (smiles : String)
    (hparse : molFromSmiles smiles = none)
    (hcache : cache.lookup smiles = none) :
    bulk_smiles_to_fingerprint molFromSmiles morganFp fingerprint_size cache smiles
      = (List.replicate fingerprint_size 0, cache) ∧
    inference_smiles_to_fingerprint molFromSmiles morganFp smiles
      = .error ("Error processing SMILES: Invalid SMILES: " ++ smiles) := by
  constructor
  · unfold bulk_smiles_to_fingerprint
    rw [hcache, hparse]
  · unfold inference_smiles_to_fingerprint
    rw [hparse]

/-- Witness for C5 at a concrete rejecting parser and input. -/
theorem fingerprint_dual_mode_witness :
    @bulk_smiles_to_fingerprint Unit (fun _ => none) (fun _ => []) 4 [] "C1CC"
      = (List.replicate 4 0, []) ∧
    @inference_smiles_to_fingerprint Unit (fun _ => none) (fun _ => []) "C1CC"
      = .error ("Error processing SMILES: Invalid SMILES: " ++ "C1CC") :=
  @fingerprint_dual_mode Unit (fun _ => none) (fun _ => []) 4 [] "C1CC" rfl rfl

/-- C8: with fingerprints of a common length n, the pair feature is the
concatenation of a's fingerprint then b's, has length 2 × n, agrees with the
swapped pair exactly when the two fingerprints coincide, and for a repeated
structure its first half equals its second half. -/
theorem encode_pair_concat (encode : String → List ℚ) (n : ℕ) (a b : String)
    (ha : (encode a).length = n) (hb : (encode b).length = n) :
    encode_pair encode a b = encode a ++ encode b ∧
    (encode_pair encode a b).length = 2 * n ∧
    (encode_pair encode a b = encode_pair encode b a ↔ encode a = encode b) ∧
    (encode_pair encode a a).take n = (encode_pair encode a a).drop n := by
  refine ⟨rfl, ?_, ?_, ?_⟩
  · simp [encode_pair, ha, hb, two_mul]
  · constructor
    · intro h
      rw [encode_pair, encode_pair] at h
      have h' := congrArg (List.take n) h
      rw [List.take_left' ha, List.take_left' hb] at h'
      exact h'
    · intro h
      rw [encode_pair, encode_pair, h]
  · rw [encode_pair, List.take_left' ha, List.drop_left' ha]

/-- Witness for C8 at a concrete encoder and pair of structures. -/
theorem encode_pair_concat_witness :
    encode_pair (fun s => [(s.length : ℚ), 1]) "CC" "O"
      = [(2 : ℚ), 1] ++ [(1 : ℚ), 1] ∧
    (encode_pair (fun s => [(s.length : ℚ), 1]) "CC" "O").length = 2 * 2 ∧
    (encode_pair (fun s => [(s.length : ℚ), 1]) "CC" "O"
        = encode_pair (fun s => [(s.length : ℚ), 1]) "O" "CC" ↔
      (fun s => [(s.length : ℚ), 1]) "CC" = (fun s => [(s.length : ℚ), 1]) "O") ∧
    (encode_pair (fun s => [(s.length : ℚ), 1]) "CC" "CC").take 2
      = (encode_pair (fun s => [(s.length : ℚ), 1]) "CC" "CC").drop 2 := by
  exact encode_pair_concat (fun s => [(s.length : ℚ), 1]) 2 "CC" "O" rfl rfl

/-- C4: the classifier returns None on an absent description; on a present
description it tests the severe lexicon first (any hit gives Severe, even
when a moderate keyword is also present), then the moderate lexicon (a hit
with no severe hit gives Moderate), and returns None when neither lexicon
matches the lower-cased text. -/
theorem classify_severity_precedence (d : String) :
    classify_interaction_severity none = "None" ∧
    ((severe_keywords.any fun kw => strContains (pyLower d) kw) = true →
      classify_interaction_severity (some d) = "Severe") ∧
    ((severe_keywords.any fun kw => strContains (pyLower d) kw) = false →
     (moderate_keywords.any fun kw => strContains (pyLower d) kw) = true →
      classify_interaction_severity (some d) = "Moderate") ∧
    ((severe_keywords.any fun kw => strContains (pyLower d) kw) = false →
     (moderate_keywords.any fun kw => strContains (pyLower d) kw) = false →
      classify_interaction_severity (some d) = "None") := by
  refine ⟨rfl, ?_, ?_, ?_⟩
  · intro hs
    simp [classify_interaction_severity, hs]
  · intro hs hm
    simp [classify_interaction_severity, hs, hm]
  · intro hs hm
    simp [classify_interaction_severity, hs, hm]

/-- Witness for C4: a text with both a severe and a moderate keyword is
Severe, a text with only moderate keywords is Moderate, an absent
description is None. -/
theorem classify_severity_precedence_witness :
    classify_interaction_severity (some "Avoid combining; use caution") = "Severe" ∧
    classify_interaction_severity (some "Use caution and monitor closely") = "Moderate" ∧
    classify_interaction_severity none = "None" :=
  ⟨(classify_severity_precedence "Avoid combining; use caution").2.1 (by decide),
   (classify_severity_precedence "Use caution and monitor closely").2.2.1
     (by decide) (by decide),
   (classify_severity_precedence "x").1⟩

/-- Evaluation of the risk-message ladder on the fitted taxonomy
[Moderate, None, Severe] (sklearn sorts class names), with the distribution
given in that index order. -/
theorem get_risk_message_eval (pm pn ps : ℚ) :
    get_risk_message ["Moderate", "None", "Severe"] [pm, pn, ps] =
      (if ps > 7/10 then .dangerousCombination
       else if ps > 5/10 then .highSevereRisk
       else if pm > 6/10 then .moderateCaution
       else if pm > 4/10 then .potentialInteraction
       else if pn > 7/10 then .safeCombination
       else .uncertain) := by
  have hS : classProb ["Moderate", "None", "Severe"] [pm, pn, ps] "Severe" = ps := rfl
  have hM : classProb ["Moderate", "None", "Severe"] [pm, pn, ps] "Moderate" = pm := rfl
  have hN : classProb ["Moderate", "None", "Severe"] [pm, pn, ps] "None" = pn := rfl
  rw [get_risk_message]
  rw [hS, hM, hN]

/-- C1: on a distribution over the taxonomy [Moderate, None, Severe] the
risk message is decided by the fixed strict ladder — severe > 0.7, then
severe > 0.5, then moderate > 0.6, then moderate > 0.4, then none > 0.7,
else uncertain — each branch exactly when all earlier checks fail, so a
probability equal to a threshold never triggers that threshold's branch. -/
theorem risk_message_ladder (pm pn ps : ℚ) :
    (get_risk_message ["Moderate", "None", "Severe"] [pm, pn, ps]
        = .dangerousCombination ↔ ps > 7/10) ∧
    (get_risk_message ["Moderate", "None", "Severe"] [pm, pn, ps]
        = .highSevereRisk ↔ ps ≤ 7/10 ∧ ps > 5/10) ∧
    (get_risk_message ["Moderate", "None", "Severe"] [pm, pn, ps]
        = .moderateCaution ↔ ps ≤ 5/10 ∧ pm > 6/10) ∧
    (get_risk_message ["Moderate", "None", "Severe"] [pm, pn, ps]
        = .potentialInteraction ↔ ps ≤ 5/10 ∧ pm ≤ 6/10 ∧ pm > 4/10) ∧
    (get_risk_message ["Moderate", "None", "Severe"] [pm, pn, ps]
        = .safeCombination ↔ ps ≤ 5/10 ∧ pm ≤ 4/10 ∧ pn > 7/10) ∧
    (get_risk_message ["Moderate", "None", "Severe"] [pm, pn, ps]
        = .uncertain ↔ ps ≤ 5/10 ∧ pm ≤ 4/10 ∧ pn ≤ 7/10) ∧
    get_risk_message ["Moderate", "None", "Severe"] [pm, pn, 7/10]
        ≠ .dangerousCombination ∧
    get_risk_message ["Moderate", "None", "Severe"] [pm, pn, 5/10]
        ≠ .highSevereRisk ∧
    get_risk_message ["Moderate", "None", "Severe"] [6/10, pn, ps]
        ≠ .moderateCaution ∧
    get_risk_message ["Moderate", "None", "Severe"] [4/10, pn, ps]
        ≠ .potentialInteraction ∧
    get_risk_message ["Moderate", "None", "Severe"] [pm, 7/10, ps]
        ≠ .safeCombination := by
  refine ⟨?_, ?_, ?_, ?_, ?_, ?_, ?_, ?_, ?_, ?_, ?_⟩ <;>
    rw [get_risk_message_eval] <;> split_ifs <;>
    simp_all <;> intros <;> linarith

/-- Scaling a list by 100 scales its Python max by 100. -/
theorem maxList_percent (p : List ℚ) :
    maxList (probabilitiesField p) = 100 * maxList p := by
  induction p with
  | nil => simp [maxList, probabilitiesField]
  | cons x xs ih =>
    simp only [maxList, probabilitiesField, List.map_cons, List.foldr_cons] at ih ⊢
    rw [ih, mul_max_of_nonneg x _ (by norm_num : (0:ℚ) ≤ 100)]
    rw [mul_comm x 100]

/-- C3: the confidence tier is decided by the maximum class probability
scaled by 100 against the strict thresholds 80 and 60; boundary values fall
to the lower tier, so a maximum probability of exactly 0.80 gives Medium. -/
theorem confidence_tier_strict (p : List ℚ) :
    (confidenceOf p = .high ↔ 100 * maxList p > 80) ∧
    (confidenceOf p = .medium ↔ 100 * maxList p ≤ 80 ∧ 100 * maxList p > 60) ∧
    (confidenceOf p = .low ↔ 100 * maxList p ≤ 60) ∧
    (maxList p = 4/5 → confidenceOf p = .medium) := by
  have h := maxList_percent p
  refine ⟨?_, ?_, ?_, ?_⟩ <;>
    simp only [confidenceOf, h] <;> split_ifs <;>
    simp_all <;> intros <;> linarith

/-- Witness for C3: a distribution whose maximum is exactly 0.80 is rated
Medium, not High. -/
theorem confidence_tier_strict_witness :
    confidenceOf [1/10, 1/10, 4/5] = .medium :=
  (confidence_tier_strict [1/10, 1/10, 4/5]).2.2.2 (by norm_num [maxList])

/-- C7: on a non-empty probability vector, `np.argmax` as used by
`predict_from_smiles` returns an in-range index attaining the maximum, and
among indices attaining the maximum it is the least one, so ties go to the
class with the lower taxonomy index; determinism is immediate because the
choice is a pure function of the vector. -/
theorem predicted_class_argmax (p : List ℚ) (h : p ≠ []) :
    argmaxList p < p.length ∧
    (∀ i, i < p.length → p.getD i 0 ≤ p.getD (argmaxList p) 0) ∧
    (∀ i, i < p.length → p.getD i 0 = p.getD (argmaxList p) 0 → argmaxList p ≤ i) ∧
    (∀ q : List ℚ, q = p → argmaxList q = argmaxList p) := by
  have hz : ∀ (a : ℚ) (l : List ℚ), (a :: l).getD 0 0 = a := fun a l => rfl
  have hs : ∀ (a : ℚ) (l : List ℚ) (n : ℕ), (a :: l).getD (n + 1) 0 = l.getD n 0 :=
    fun a l n => rfl
  induction p with
  | nil => exact absurd rfl h
  | cons x xs ih =>
    cases xs with
    | nil =>
      refine ⟨by simp [argmaxList], ?_, ?_, fun q hq => hq ▸ rfl⟩
      · intro i hi
        have hi0 : i = 0 := by
          simp only [List.length_cons, List.length_nil] at hi
          omega
        subst hi0
        exact le_refl _
      · intro i hi heq
        simp [argmaxList]
    | cons y ys =>
      obtain ⟨ih1, ih2, ih3, -⟩ := ih (List.cons_ne_nil y ys)
      have hif : argmaxList (x :: y :: ys) =
          if x < (y :: ys).getD (argmaxList (y :: ys)) 0
          then argmaxList (y :: ys) + 1 else 0 := rfl
      by_cases hgt : x < (y :: ys).getD (argmaxList (y :: ys)) 0
      · have hres : argmaxList (x :: y :: ys) = argmaxList (y :: ys) + 1 := by
          rw [hif, if_pos hgt]
        refine ⟨?_, ?_, ?_, fun q hq => hq ▸ rfl⟩
        · rw [hres, List.length_cons]
          exact Nat.succ_lt_succ ih1
        · intro i hi
          rw [hres, hs]
          cases i with
          | zero =>
            rw [hz]
            exact le_of_lt hgt
          | succ i' =>
            rw [hs]
            refine ih2 i' ?_
            rw [List.length_cons] at hi
            omega
        · intro i hi heq
          rw [hres] at heq
          rw [hs] at heq
          rw [hres]
          cases i with
          | zero =>
            rw [hz] at heq
            rw [heq] at hgt
            exact absurd hgt (lt_irrefl _)
          | succ i' =>
            rw [hs] at heq
            have hmin : argmaxList (y :: ys) ≤ i' := by
              refine ih3 i' ?_ heq
              rw [List.length_cons] at hi
              omega
            omega
      · have hres : argmaxList (x :: y :: ys) = 0 := by
          rw [hif, if_neg hgt]
        refine ⟨?_, ?_, ?_, fun q hq => hq ▸ rfl⟩
        · rw [hres]
          exact Nat.succ_pos _
        · intro i hi
          rw [hres, hz]
          cases i with
          | zero =>
            rw [hz]
          | succ i' =>
            rw [hs]
            have h1 : (y :: ys).getD i' 0 ≤ (y :: ys).getD (argmaxList (y :: ys)) 0 := by
              refine ih2 i' ?_
              rw [List.length_cons] at hi
              omega
            exact le_trans h1 (not_lt.mp hgt)
        · intro i hi heq
          rw [hres]
          exact Nat.zero_le i

/-- Witness for C7: on a tied distribution the earlier index wins. -/
theorem predicted_class_argmax_witness :
    argmaxList [(1:ℚ)/2, 1/2, 0] ≤ 0 :=
  (predicted_class_argmax [(1:ℚ)/2, 1/2, 0] (List.cons_ne_nil _ _)).2.2.1 0
    (by norm_num) (by norm_num [argmaxList])

/-- The row loop never pushes `processed` past `max_samples` when it starts
below it, and every accumulated feature row accounts for exactly one
increment of `processed`. -/
theorem processRows_cap (drug_to_smiles : List (String × String))
    (encode : String → List ℚ) (max_samples : ℕ) (rows : List InteractionRow) :
    ∀ processed : ℕ, processed < max_samples →
      (processRows drug_to_smiles encode max_samples rows processed).2 ≤ max_samples ∧
      (processRows drug_to_smiles encode max_samples rows processed).1.length + processed
        = (processRows drug_to_smiles encode max_samples rows processed).2 := by
  induction rows with
  | nil =>
    intro processed hp
    exact ⟨le_of_lt hp, by simp [processRows]⟩
  | cons row rest ih =>
    intro processed hp
    cases hd1 : drug_to_smiles.lookup row.drug1 with
    | none =>
      simp only [processRows, hd1]
      exact ih processed hp
    | some s1 =>
      cases hd2 : drug_to_smiles.lookup row.drug2 with
      | none =>
        simp only [processRows, hd1, hd2]
        exact ih processed hp
      | some s2 =>
        simp only [processRows, hd1, hd2]
        by_cases hstop : max_samples ≤ processed + 1
        · simp only [if_pos hstop]
          exact ⟨by omega, by simp only [List.length_cons, List.length_nil]; omega⟩
        · simp only [if_neg hstop]
          obtain ⟨iha, ihb⟩ := ih (processed + 1) (by omega)
          refine ⟨iha, ?_⟩
          simp only [List.length_cons]
          omega

/-- The chunk loop inherits the cap: starting below `max_samples`, the
total number of accumulated feature rows plus the starting counter equals
the final counter, which never exceeds `max_samples`. -/
theorem processChunks_cap (drug_to_smiles : List (String × String))
    (encode : String → List ℚ)
    (sampler : ℚ → ℕ → List InteractionRow → List InteractionRow)
    (sample_ratio : ℚ) (random_state : ℕ) (max_samples : ℕ)
    (chunks : List (List InteractionRow)) :
    ∀ processed : ℕ, processed < max_samples →
      (processChunks drug_to_smiles encode sampler sample_ratio random_state
        max_samples chunks processed).2 ≤ max_samples ∧
      (processChunks drug_to_smiles encode sampler sample_ratio random_state
          max_samples chunks processed).1.length + processed
        = (processChunks drug_to_smiles encode sampler sample_ratio random_state
            max_samples chunks processed).2 := by
  induction chunks with
  | nil =>
    intro processed hp
    exact ⟨le_of_lt hp, by simp [processChunks]⟩
  | cons chunk rest ih =>
    intro processed hp
    simp only [processChunks]
    obtain ⟨ha, hb⟩ := processRows_cap drug_to_smiles encode max_samples
      (if sample_ratio < 1 then sampler sample_ratio random_state chunk else chunk)
      processed hp
    by_cases hstop : max_samples ≤ (processRows drug_to_smiles encode max_samples
        (if sample_ratio < 1 then sampler sample_ratio random_state chunk else chunk)
        processed).2
    · simp only [if_pos hstop]
      exact ⟨ha, hb⟩
    · simp only [if_neg hstop]
      obtain ⟨iha, ihb⟩ := ih (processRows drug_to_smiles encode max_samples
          (if sample_ratio < 1 then sampler sample_ratio random_state chunk else chunk)
          processed).2 (by omega)
      refine ⟨iha, ?_⟩
      simp only [List.length_append]
      omega

/-- C9: when the corpus row count exceeds `max_samples` (and the cap is at
least one row), `preprocess_data_in_batches` runs the chunk loop with the
per-chunk sampler at ratio `max_samples / total_row_count` and the
configured seed, and the number of feature rows produced is at most
`max_samples`. -/
theorem batch_sampling_cap (drug_to_smiles : List (String × String))
    (encode : String → List ℚ)
    (sampler : ℚ → ℕ → List InteractionRow → List InteractionRow)
    (chunks : List (List InteractionRow)) (max_samples random_state : ℕ)
    (hover : max_samples < (chunks.map List.length).sum)
    (hpos : 1 ≤ max_samples) :
    preprocess_data_in_batches drug_to_smiles encode sampler chunks
        max_samples random_state
      = (processChunks drug_to_smiles encode sampler
          ((max_samples : ℚ) / (((chunks.map List.length).sum : ℕ) : ℚ))
          random_state max_samples chunks 0).1 ∧
    (preprocess_data_in_batches drug_to_smiles encode sampler chunks
        max_samples random_state).length ≤ max_samples := by
  have hdef : preprocess_data_in_batches drug_to_smiles encode sampler chunks
      max_samples random_state
    = (processChunks drug_to_smiles encode sampler
        ((max_samples : ℚ) / (((chunks.map List.length).sum : ℕ) : ℚ))
        random_state max_samples chunks 0).1 := by
    simp only [preprocess_data_in_batches, if_pos hover]
  refine ⟨hdef, ?_⟩
  rw [hdef]
  obtain ⟨ha, hb⟩ := processChunks_cap drug_to_smiles encode sampler
    ((max_samples : ℚ) / (((chunks.map List.length).sum : ℕ) : ℚ))
    random_state max_samples chunks 0 (by omega)
  omega

/-- Witness for C9: three one-row chunks, a cap of one sample, a pass-through
sampler, and a drug index resolving every key; exactly one feature row comes
out. -/
theorem batch_sampling_cap_witness :
    (preprocess_data_in_batches [("a", "CC"), ("b", "O")]
        (fun _ => [1]) (fun _ _ c => c)
        [[⟨"a", "b", none⟩], [⟨"a", "a", none⟩], [⟨"b", "b", none⟩]] 1 42).length ≤ 1 :=
  (batch_sampling_cap [("a", "CC"), ("b", "O")] (fun _ => [1]) (fun _ _ c => c)
    [[⟨"a", "b", none⟩], [⟨"a", "a", none⟩], [⟨"b", "b", none⟩]] 1 42
    (by norm_num) (by norm_num)).2

/-- Scaling every entry of a list by 100 scales its sum by 100. -/
theorem sum_map_mul_hundred (l : List ℚ) :
    (l.map (fun x => x * 100)).sum = l.sum * 100 := by
  induction l with
  | nil => simp
  | cons x xs ih => simp [ih, add_mul]

/-- C10: the per-class `probabilities` field holds the raw probabilities
multiplied by 100 (summing to 100 for a distribution); the confidence tier
compares the maximum of these percentage values to 80 and 60, which is
equivalent to comparing the raw maximum to 0.80; while the risk-message
ladder reads the raw, unscaled probabilities against its 0.7 threshold. -/
theorem percent_scale_contract (p : List ℚ) (hsum : p.sum = 1) :
    probabilitiesField p = p.map (fun x => x * 100) ∧
    (probabilitiesField p).sum = 100 ∧
    (confidenceOf p = .high ↔ maxList (probabilitiesField p) > 80) ∧
    (confidenceOf p = .medium ↔
      maxList (probabilitiesField p) ≤ 80 ∧ maxList (probabilitiesField p) > 60) ∧
    (confidenceOf p = .high ↔ maxList p > 80/100) ∧
    (get_risk_message ["Moderate", "None", "Severe"] p = .dangerousCombination ↔
      classProb ["Moderate", "None", "Severe"] p "Severe" > 7/10) := by
  have hm := maxList_percent p
  refine ⟨rfl, ?_, ?_, ?_, ?_, ?_⟩
  · rw [probabilitiesField, sum_map_mul_hundred, hsum]
    norm_num
  · simp only [confidenceOf]
    split_ifs with h1 h2 <;> simp_all
  · simp only [confidenceOf]
    split_ifs with h1 h2 <;> simp_all <;> intros <;> linarith
  · simp only [confidenceOf]
    rw [hm]
    split_ifs with h1 h2 <;> simp_all <;> intros <;> linarith
  · simp only [get_risk_message]
    split_ifs <;> simp_all

/-- Witness for C10 at a concrete distribution summing to 1. -/
theorem percent_scale_contract_witness :
    (probabilitiesField [1/2, 3/10, 1/5]).sum = 100 :=
  (percent_scale_contract [1/2, 3/10, 1/5] (by norm_num)).2.1
